import Mathlib

/-!
Verification of the STM32SD path/handle wrapper (`src/SD.cpp`, `src/STM32SD.h`).

The wrapper sits on top of the external FatFs driver, which the spec treats
as an opaque boundary (§6).  We model that boundary as an oracle structure
`FatFs` giving the outcome of `f_stat`, `f_open` and `f_opendir` on each
path, together with pure models of the per-handle primitives `f_read`,
`f_lseek`, `f_tell`, `f_size`, `f_readdir` and `f_closedir` (a `FIL` carries
its content and read pointer, a `DIR` carries its not-yet-enumerated
entries).  Hardware I/O errors are out of scope; a dead native object
(its `fs` pointer is 0) is the modelled failure mode, as in FatFs, where
every API validates the object and fails with `FR_INVALID_OBJECT`.

All strings are `List Char` (the C code uses nul-terminated `char *`);
machine integers are `Nat`/`Int`, with the one 32-bit wrap that matters
(`available()`'s unsigned subtraction) made explicit.
-/

/-- FatFs result codes (the subset this wrapper can observe or store). -/
inductive FRESULT where
  | FR_OK
  | FR_DISK_ERR
  | FR_NO_FILE
  | FR_NO_PATH
  | FR_INVALID_OBJECT
  | FR_EXIST
  | FR_NOT_ENOUGH_CORE
  deriving DecidableEq, Repr

/-- `FA_READ` open flag (FatFs `ff.h`). -/
def FA_READ : Nat := 1
/-- `FA_WRITE` open flag (FatFs `ff.h`). -/
def FA_WRITE : Nat := 2
/-- `FA_CREATE_ALWAYS` open flag (FatFs `ff.h`). -/
def FA_CREATE_ALWAYS : Nat := 8
/-- Modelled from the spec: the `FILE_WRITE` mode constant lives in
`SdFatFs.h`, which is part of this repository but not under `src/`;
it is `FA_READ | FA_WRITE`, the "write-mode requested" value the spec's
create-flag sentence refers to. -/
def FILE_WRITE : Nat := FA_READ ||| FA_WRITE
/-- `FILE_READ` mode constant (`SdFatFs.h`): `FA_READ`. -/
def FILE_READ : Nat := FA_READ
/-- `AM_DIR` attribute bit (FatFs `ff.h`). -/
def AM_DIR : Nat := 16
/-- `LS_DATE` flag for `ls()` (`STM32SD.h`). -/
def LS_DATE : Nat := 1
/-- `LS_SIZE` flag for `ls()` (`STM32SD.h`). -/
def LS_SIZE : Nat := 2
/-- `LS_R` flag for `ls()` (`STM32SD.h`). -/
def LS_R : Nat := 4

/-- A native FatFs file object.  `fs` models the `obj.fs` back pointer:
`0` means the object is not associated with a live mount (FatFs
invalidates an object by zeroing this field).  `content`/`fptr` model the
stream: `f_size` is `content.length`, `f_tell` is `fptr`. -/
structure FIL where
  fs : Nat := 0
  fptr : Nat := 0
  content : List Nat := []
  deriving DecidableEq, Repr

/-- One `readdir` result (`FILINFO`): 8.3 name, attribute bits, size and
raw bit-packed modification date/time. -/
structure FILINFO where
  fname : List Char := []
  fattrib : Nat := 0
  fsize : Nat := 0
  fdate : Nat := 0
  ftime : Nat := 0
  deriving DecidableEq, Repr

/-- A native FatFs directory object.  `fs` is the `obj.fs` back pointer
(`0` = dead); `rest` is the list of entries the iterator has not yet
produced (`f_readdir` pops its head; an exhausted iterator reports
`FR_OK` with an empty name, as FatFs does). -/
structure DIR where
  fs : Nat := 0
  rest : List FILINFO := []
  deriving DecidableEq, Repr

/-- The `File` handle of `STM32SD.h`: owned path (`_name`, `none` =
released/never allocated), owned native file object (`_fil`, `none` =
released/never allocated), inline native directory object `_dir`, and the
last stored result code `_res`. -/
structure File where
  _name : Option (List Char) := none
  _fil : Option FIL := none
  _dir : DIR := {}
  _res : FRESULT := .FR_OK
  deriving DecidableEq, Repr

/-- `File::File(FRESULT result = FR_OK)`: `_name = nullptr`,
`_fil = nullptr`, `_res = result`; `_dir` is zero-initialised by the
in-class initialiser `DIR _dir = {}`. -/
def File.mkRes (result : FRESULT) : File :=
  { _name := none, _fil := none, _dir := {}, _res := result }

/-- `File::operator bool()`: false iff `_name` is null, or `_fil` is null
while `_dir.obj.fs == 0`, or `_fil` is allocated but dead
(`_fil->obj.fs == 0`) while `_dir.obj.fs == 0`. -/
def File.toBool (f : File) : Bool :=
  !(f._name.isNone
    || (f._fil.isNone && f._dir.fs == 0)
    || ((match f._fil with
         | some fil => fil.fs == 0
         | none => false) && f._dir.fs == 0))

/-- The handle is file-bound: `_fil` allocated and live. -/
def File.fileBound (f : File) : Bool :=
  match f._fil with
  | some fil => fil.fs != 0
  | none => false

/-- The handle is directory-bound: `_dir` live. -/
def File.dirBound (f : File) : Bool :=
  f._dir.fs != 0

/-- The spec's Handle invariant (§3): never both file- and
directory-bound, and the path is unbound exactly when both states are
unbound. -/
def File.inv (f : File) : Bool :=
  !(f.fileBound && f.dirBound)
    && (f._name.isNone == (!f.fileBound && !f.dirBound))

/-- The native-driver oracle: the outcome of each path-level FatFs call.
`stat p = some info` models `f_stat` returning `FR_OK` with `info`;
`fopen p m` is the result code of `f_open(fil, p, m)` together with the
`FIL` state it wrote; `fopendir p` likewise for `f_opendir`. -/
structure FatFs where
  stat : List Char → Option FILINFO
  fopen : List Char → Nat → FRESULT × FIL
  fopendir : List Char → FRESULT × DIR

/-- Boundary facts about FatFs this wrapper relies on: a successful
`f_open`/`f_opendir` leaves a live object (`fs ≠ 0`), and a failed
`f_opendir` invalidates the directory object (`dp->obj.fs = 0`). -/
def FatFs.WF (sd : FatFs) : Prop :=
  (∀ p m, (sd.fopen p m).1 = .FR_OK → (sd.fopen p m).2.fs ≠ 0)
    ∧ (∀ p, (sd.fopendir p).1 = .FR_OK → (sd.fopendir p).2.fs ≠ 0)
    ∧ (∀ p, (sd.fopendir p).1 ≠ .FR_OK → (sd.fopendir p).2.fs = 0)

/-- `SDClass::exists`: true iff `f_stat` succeeds. -/
def SDClass.sdExists (sd : FatFs) (filepath : List Char) : Bool :=
  (sd.stat filepath).isSome

/-- The mode actually passed to `f_open` by `SDClass::open`: the
create-flag is added when `mode == FILE_WRITE` and nothing exists at the
path. -/
def SDClass.adjMode (sd : FatFs) (filepath : List Char) (mode : Nat) : Nat :=
  if mode == FILE_WRITE && !SDClass.sdExists sd filepath then
    mode ||| FA_CREATE_ALWAYS
  else
    mode

/-- `SDClass::open(filepath, mode)`: copy the path into owned storage,
allocate a `FIL` and zero both objects' `fs` fields, adjust the mode,
then try `f_open`; on failure free the `FIL` and try `f_opendir` on the
same path; if that also fails free the path.  The two `malloc` calls
halt the process through `Error_Handler()` on failure, so the returned
handle always has both buffers initially allocated. -/
def SDClass.opn (sd : FatFs) (filepath : List Char) (mode : Nat) : File :=
  let m := SDClass.adjMode sd filepath mode
  let r1 := sd.fopen filepath m
  if r1.1 = .FR_OK then
    { _name := some filepath, _fil := some r1.2, _dir := { fs := 0, rest := [] },
      _res := r1.1 }
  else
    let r2 := sd.fopendir filepath
    if r2.1 = .FR_OK then
      { _name := some filepath, _fil := none, _dir := r2.2, _res := r2.1 }
    else
      { _name := none, _fil := none, _dir := r2.2, _res := r2.1 }

/-- `f_closedir`: invalidates the directory object. -/
def f_closedir (_d : DIR) : DIR :=
  { fs := 0, rest := [] }

/-- `File::close()`: only acts when `_name` is non-null; syncs and closes
the file object if allocated and live, frees it; closes the directory
object if live; frees `_name`. -/
def File.close (f : File) : File :=
  if f._name.isSome then
    { _name := none
      _fil := none
      _dir := if f._dir.fs ≠ 0 then f_closedir f._dir else f._dir
      _res := f._res }
  else
    f

/-- `File::size()`: `f_size(_fil)`, the file length (0 when unbound,
per spec §4.1). -/
def File.size (f : File) : Nat :=
  match f._fil with
  | some fil => fil.content.length
  | none => 0

/-- `File::position()`: `f_tell(_fil)` (0 when unbound, per spec §4.1). -/
def File.position (f : File) : Nat :=
  match f._fil with
  | some fil => fil.fptr
  | none => 0

/-- `f_lseek` on a `FIL`: fails (`FR_INVALID_OBJECT`) on a dead object,
otherwise moves the read/write pointer (clamped to the file size, the
FatFs read-mode behaviour; the wrapper only calls it with in-range
positions). -/
def f_lseek (fil : FIL) (pos : Nat) : FRESULT × FIL :=
  if fil.fs = 0 then (.FR_INVALID_OBJECT, fil)
  else (.FR_OK, { fil with fptr := min pos fil.content.length })

/-- `File::seek(pos)`: rejects `pos > size()` without touching the native
object; otherwise delegates to `f_lseek` and reports its success. -/
def File.seek (f : File) (pos : Nat) : Bool × File :=
  if pos > f.size then
    (false, f)
  else
    match f._fil with
    | none => (false, f)
    | some fil =>
      let r := f_lseek fil pos
      (r.1 = .FR_OK, { f with _fil := some r.2 })

/-- Truncation to 32 bits (`uint32_t`). -/
def u32 (n : Nat) : Nat := n % 2 ^ 32

/-- `uint32_t` subtraction `a - b` with wrap-around. -/
def u32sub (a b : Nat) : Nat := (u32 a + 2 ^ 32 - u32 b) % 2 ^ 32

/-- `File::available()`: `uint32_t n = size() - position()`, then
`n > 0x7FFF ? 0x7FFF : n`, returned as a C `int`. -/
def File.available (f : File) : Int :=
  let n := u32sub f.size f.position
  if n > 0x7FFF then (0x7FFF : Int) else (n : Int)

/-- `f_read(fil, buf, len, &br)`: fails on a dead object; otherwise reads
`min len (size - fptr)` bytes from `fptr`, advances `fptr` by the number
of bytes read and reports them (`FR_OK` with 0 bytes at end of file). -/
def f_read (fil : FIL) (len : Nat) : FRESULT × List Nat × FIL :=
  if fil.fs = 0 then (.FR_INVALID_OBJECT, [], fil)
  else
    let chunk := (fil.content.drop fil.fptr).take len
    (.FR_OK, chunk, { fil with fptr := fil.fptr + chunk.length })

/-- The value of a byte pattern stored in an `int8_t` object, widened to
`int` (two's-complement sign extension). -/
def int8OfByte (b : Nat) : Int :=
  if b % 256 < 128 then (b % 256 : Int) else (b % 256 : Int) - 256

/-- `File::read()`: `int8_t data; if (f_read(_fil, &data, 1, &br) == FR_OK)
return data; return -1;`.  `data0` is the (uninitialised) value the stack
slot for `data` happens to hold: `f_read` only overwrites it when a byte
was actually read, so at end of file the function returns `data0`. -/
def File.read1 (data0 : Int) (f : File) : Int × File :=
  match f._fil with
  | none => (-1, f)
  | some fil =>
    let r := f_read fil 1
    let f' := { f with _fil := some r.2.2 }
    if r.1 = .FR_OK then
      (match r.2.1 with
       | [b] => int8OfByte b
       | _ => data0, f')
    else
      (-1, f')

/-- `File::read(buf, len)`: returns the byte count reported by `f_read`
(and the bytes themselves, modelling `buf`), or `-1` when `f_read`
fails. -/
def File.readBuf (f : File) (len : Nat) : Int × List Nat × File :=
  match f._fil with
  | none => (-1, [], f)
  | some fil =>
    let r := f_read fil len
    if r.1 = .FR_OK then
      ((r.2.1.length : Int), r.2.1, { f with _fil := some r.2.2 })
    else
      (-1, [], { f with _fil := some r.2.2 })

/-- `strrchr(s, '/')` followed by the `name++` step of `File::name`: the
suffix of `s` after its last `'/'`, or `none` when `s` has no `'/'`. -/
def afterLastSlash : List Char → Option (List Char)
  | [] => none
  | c :: cs =>
    match afterLastSlash cs with
    | some s => some s
    | none => if c = '/' then some cs else none

/-- `File::name()`: `strrchr(_name, '/')`, stepped past the separator
when found; null when the path holds no separator. -/
def File.name (f : File) : Option (List Char) :=
  match f._name with
  | some n => afterLastSlash n
  | none => none

/-- The child-path construction of `File::openNextFile`:
`sprintf(fullPath, "%s%s", _name, fn)` when `_name` already ends in `'/'`
(and is non-empty), else `sprintf(fullPath, "%s/%s", _name, fn)`. -/
def childPath (n fn : List Char) : List Char :=
  if n.getLast? = some '/' then n ++ fn else n ++ '/' :: fn

/-- The entry-skipping test of `openNextFile`/`ls`:
`fno.fname[0] == '.'`. -/
def isDotEntry (fno : FILINFO) : Bool :=
  fno.fname.head? == some '.'

/-- The `while (1)` loop body of `File::openNextFile`, iterating over the
entries the directory iterator has not yet produced.  Per entry:
`f_readdir` end / error breaks out returning `File(res)`; a leading-dot
name is skipped; otherwise the child path is built (the `malloc` outcome
is the `allocOk` oracle; on failure `File(FR_NOT_ENOUGH_CORE)`) and
resolved through `SDClass::open`.  Also returns the iterator's remaining
entries. -/
def openNextFrom (sd : FatFs) (allocOk : Bool) (n : List Char) (mode : Nat) :
    List FILINFO → File × List FILINFO
  | [] => (File.mkRes .FR_OK, [])
  | fno :: rest =>
    if fno.fname = [] then (File.mkRes .FR_OK, rest)
    else if isDotEntry fno then openNextFrom sd allocOk n mode rest
    else if allocOk then (SDClass.opn sd (childPath n fno.fname) mode, rest)
    else (File.mkRes .FR_NOT_ENOUGH_CORE, rest)

/-- `File::openNextFile(mode)`: on a dead directory object the first
`f_readdir` fails and the loop returns `File(FR_INVALID_OBJECT)`;
otherwise the loop above runs and the handle's iterator state advances. -/
def File.openNextFile (sd : FatFs) (allocOk : Bool) (mode : Nat) (f : File) :
    File × File :=
  if f._dir.fs = 0 then
    (File.mkRes .FR_INVALID_OBJECT, f)
  else
    let r := openNextFrom sd allocOk (f._name.getD []) mode f._dir.rest
    (r.1, { f with _dir := { f._dir with rest := r.2 } })

/-- Indent spaces printed by `ls`. -/
def spaces (k : Nat) : List Char := List.replicate k ' '

/-- `Print::println()` line terminator. -/
def crlf : List Char := ['\r', '\n']

/-- Decimal rendering of a number by `Print::print`. -/
def natChars (v : Nat) : List Char := (Nat.repr v).data

/-- `File::printTwoDigits(v)`: `'0' + v / 10` and `'0' + v % 10` as
bytes. -/
def twoDigits (v : Nat) : List Char :=
  [Char.ofNat ((48 + v / 10) % 256), Char.ofNat ((48 + v % 10) % 256)]

/-- `FAT_YEAR` (`SdFatFs.h`, standard FAT date packing): `1980 + (d >> 9)`. -/
def FAT_YEAR (fatDate : Nat) : Nat := 1980 + fatDate / 512
/-- `FAT_MONTH`: `(d >> 5) & 0xF`. -/
def FAT_MONTH (fatDate : Nat) : Nat := fatDate / 32 % 16
/-- `FAT_DAY`: `d & 0x1F`. -/
def FAT_DAY (fatDate : Nat) : Nat := fatDate % 32
/-- `FAT_HOUR`: `t >> 11`. -/
def FAT_HOUR (fatTime : Nat) : Nat := fatTime / 2048
/-- `FAT_MINUTE`: `(t >> 5) & 0x3F`. -/
def FAT_MINUTE (fatTime : Nat) : Nat := fatTime / 32 % 64
/-- `FAT_SECOND`: `2 * (t & 0x1F)`. -/
def FAT_SECOND (fatTime : Nat) : Nat := 2 * (fatTime % 32)

/-- `File::printFatDate`: `yyyy-mm-dd`. -/
def printFatDate (fatDate : Nat) : List Char :=
  natChars (FAT_YEAR fatDate)
    ++ '-' :: twoDigits (FAT_MONTH fatDate)
    ++ '-' :: twoDigits (FAT_DAY fatDate)

/-- `File::printFatTime`: `hh:mm:ss`. -/
def printFatTime (fatTime : Nat) : List Char :=
  twoDigits (FAT_HOUR fatTime)
    ++ ':' :: twoDigits (FAT_MINUTE fatTime)
    ++ ':' :: twoDigits (FAT_SECOND fatTime)

/-- The message `ls` prints when a child directory fails to open. -/
def errOpenDir : List Char := "Error to open dir: ".data

/-- The message `ls` prints when the child-path `malloc` fails. -/
def errAllocMsg : List Char := "Error to allocate memory!".data

/-- The `LS_R` subdirectory block of `File::ls` (source lines 262–281)
for the entry named `fn` under directory path `n`: `malloc` the child
path (`allocOk` is that allocation's outcome), build `<n>/<fn>`, open it
through `SDClass::open` with the default `FA_READ` mode; on a valid
child print a newline, run the recursive listing `child` at
`indent + 2` and close the child handle; on an invalid child print the
entry name and the open-error message; on allocation failure print the
allocation-error message.  Besides the bytes sent to the `Print` sink,
it returns — as a ghost observation, not a value the C code computes —
the final state of every child `File` handle created here or below:
`File.close filtmp` on the branch that closes it, `filtmp` itself on the
branch where the child failed to open (`File.close` is independent of
the child's consumed iterator entries, so this is the handle's state
when the block exits). -/
def lsSub (sd : FatFs) (allocOk : Bool)
    (child : Nat → File → List Char × List File)
    (indent : Nat) (n fn : List Char) : List Char × List File :=
  if allocOk then
    let filtmp := SDClass.opn sd (n ++ '/' :: fn) FA_READ
    if filtmp.toBool then
      let sub := child (indent + 2) filtmp
      (crlf ++ sub.1, sub.2 ++ [File.close filtmp])
    else
      (fn ++ crlf ++ errOpenDir ++ fn ++ crlf, [filtmp])
  else
    (crlf ++ errAllocMsg, [])

/-- One level of `File::ls`: the `while (1)` loop over the not-yet-read
entries of the handle's directory iterator.  Per entry: `f_readdir`
end/error breaks; leading-dot names are skipped; a non-directory entry
prints name (after the indent spaces) plus the optional date/time and
size fields; a directory entry runs the `lsSub` block when `LS_R` is
set.  `child` is the recursive listing invoked by `lsSub` (it is
`lsLoop` one depth-budget step down; see `lsLoop`).  The second
component is the ghost list of final child-handle states collected by
`lsSub`. -/
def lsLevel (sd : FatFs) (allocOk : Bool) (flags : Nat)
    (child : Nat → File → List Char × List File)
    (indent : Nat) (n : List Char) : List FILINFO → List Char × List File
  | [] => ([], [])
  | fno :: rest =>
    if fno.fname = [] then ([], [])
    else if isDotEntry fno then lsLevel sd allocOk flags child indent n rest
    else
      let pre := spaces indent ++ fno.fname
      if fno.fattrib &&& AM_DIR = 0 then
        let dt :=
          if flags &&& LS_DATE ≠ 0 then
            ' ' :: printFatDate fno.fdate ++ ' ' :: printFatTime fno.ftime
          else []
        let sz := if flags &&& LS_SIZE ≠ 0 then ' ' :: natChars fno.fsize else []
        let restOut := lsLevel sd allocOk flags child indent n rest
        (pre ++ dt ++ sz ++ crlf ++ restOut.1, restOut.2)
      else if flags &&& LS_R ≠ 0 then
        let step := lsSub sd allocOk child indent n fno.fname
        let restOut := lsLevel sd allocOk flags child indent n rest
        (pre ++ step.1 ++ restOut.1, step.2 ++ restOut.2)
      else
        let restOut := lsLevel sd allocOk flags child indent n rest
        (pre ++ restOut.1, restOut.2)

/-- `File::ls` unfolded to a depth budget `fuel` (the C recursion has no
such budget and can diverge on a cyclic volume; `fuel` only truncates the
listing below that depth — every level still opens, reports and closes
its children exactly as the source does).  A handle whose directory
object is dead lists nothing: its first `f_readdir` fails and the loop
breaks. -/
def lsLoop (sd : FatFs) (allocOk : Bool) (flags : Nat) :
    Nat → Nat → List Char → List FILINFO → List Char × List File
  | 0, indent, n, l =>
    lsLevel sd allocOk flags (fun _ _ => ([], [])) indent n l
  | fuel + 1, indent, n, l =>
    lsLevel sd allocOk flags
      (fun ind g =>
        if g._dir.fs = 0 then ([], [])
        else lsLoop sd allocOk flags fuel ind (g._name.getD []) g._dir.rest)
      indent n l

/-- `File::ls(flags, indent, print)` on a handle. -/
def File.ls (sd : FatFs) (allocOk : Bool) (fuel flags indent : Nat)
    (f : File) : List Char × List File :=
  if f._dir.fs = 0 then ([], [])
  else lsLoop sd allocOk flags fuel indent (f._name.getD []) f._dir.rest

/-- A handle with nothing bound: path released, file object released,
directory object dead. -/
def File.fullyEmpty (f : File) : Bool :=
  f._name.isNone && f._fil.isNone && (f._dir.fs == 0)

/-- Size-100 file with the read pointer at 90 (spec §8 scenario). -/
def f90 : File :=
  { _name := some ['t']
    _fil := some { fs := 1, fptr := 90, content := List.replicate 100 0 }
    _dir := {}
    _res := .FR_OK }

/-- Size-100 file with the read pointer at 100 (spec §8 scenario). -/
def f100 : File :=
  { _name := some ['t']
    _fil := some { fs := 1, fptr := 100, content := List.replicate 100 0 }
    _dir := {}
    _res := .FR_OK }

/-- File whose single byte is 200 = 0xC8. -/
def fileByte200 : File :=
  { _name := some ['x']
    _fil := some { fs := 1, fptr := 0, content := [200] }
    _dir := {}
    _res := .FR_OK }

/-- Empty file: the first read is already at end of file. -/
def fileAtEof : File :=
  { _name := some ['y']
    _fil := some { fs := 1, fptr := 0, content := [] }
    _dir := {}
    _res := .FR_OK }

/-- Handle bound to the separator-free path `"ab"`. -/
def fileNoSlash : File :=
  { _name := some ['a', 'b']
    _fil := some { fs := 1, fptr := 0, content := [] }
    _dir := {}
    _res := .FR_OK }

/-- Handle bound to the path `"d/ab"`. -/
def fileWithSlash : File :=
  { _name := some ['d', '/', 'a', 'b']
    _fil := some { fs := 1, fptr := 0, content := [] }
    _dir := {}
    _res := .FR_OK }

/-- An oracle volume on which every native stat, file-open and
directory-open fails. -/
def sdNone : FatFs :=
  { stat := fun _ => none
    fopen := fun _ _ => (.FR_NO_FILE, {})
    fopendir := fun _ => (.FR_NO_PATH, {}) }

/-- Directory-bound handle used to exercise the close conjuncts of the
invariant theorem. -/
def fDir : File :=
  { _name := some ['d']
    _fil := none
    _dir := { fs := 1, rest := [] }
    _res := .FR_OK }

/-- A `"."` directory entry. -/
def dotEntry : FILINFO := { fname := ['.'], fattrib := AM_DIR }

/-- A plain entry named `"a"`. -/
def entryA : FILINFO := { fname := ['a'] }

/-- Directory-bound handle on path `"d"` whose iterator will produce a
dot entry and then `"a"`. -/
def fDirIter : File :=
  { _name := some ['d']
    _fil := none
    _dir := { fs := 1, rest := [dotEntry, entryA] }
    _res := .FR_OK }

/-- Directory entry named `"s"`. -/
def dirEntryS : FILINFO := { fname := ['s'], fattrib := AM_DIR }

theorem fullyEmpty_toBool {f : File} (h : f.fullyEmpty = true) :
    f.toBool = false := by
  simp only [File.fullyEmpty, Bool.and_eq_true, beq_iff_eq] at h
  obtain ⟨⟨h1, h2⟩, h3⟩ := h
  simp [File.toBool, h1, h2, h3]

theorem close_of_name_some {f : File} (h : f._name.isSome = true) :
    (File.close f).fullyEmpty = true := by
  simp only [File.close, h, if_true]
  by_cases hd : f._dir.fs = 0
  · simp [File.fullyEmpty, hd]
  · simp [File.fullyEmpty, f_closedir, hd]

theorem toBool_name_some {f : File} (h : f.toBool = true) :
    f._name.isSome = true := by
  cases hn : f._name with
  | none => simp [File.toBool, hn] at h
  | some n => simp [hn]

/-- C3: `close()` is idempotent, is a no-op on a never-opened handle, and
always leaves the handle reporting invalid. -/
theorem close_idempotent_safe :
    (∀ f : File, File.close (File.close f) = File.close f)
    ∧ (∀ f : File, (File.close f).toBool = false)
    ∧ (∀ r : FRESULT, File.close (File.mkRes r) = File.mkRes r) := by
  refine ⟨?_, ?_, ?_⟩
  · intro f
    by_cases h : f._name.isSome <;> simp [File.close, h]
  · intro f
    cases hn : f._name with
    | some n => exact fullyEmpty_toBool (close_of_name_some (by simp [hn]))
    | none => simp [File.close, File.toBool, hn]
  · intro r
    simp [File.close, File.mkRes]

/-- C8: `available()` is never negative, never exceeds `0x7FFF`, and for
a position within the file equals `size() - position()` clamped to
`0x7FFF`. -/
theorem available_spec (f : File) :
    0 ≤ f.available ∧ f.available ≤ 0x7FFF
      ∧ (f.position ≤ f.size → f.size < 2 ^ 32 →
          f.available = min ((f.size : Int) - (f.position : Int)) 0x7FFF) := by
  refine ⟨?_, ?_, ?_⟩
  · simp only [File.available]
    split <;> positivity
  · simp only [File.available]
    split <;> omega
  · intro hle hsz
    have hu : u32sub f.size f.position = f.size - f.position := by
      simp only [u32sub, u32]
      have hp : f.position % 2 ^ 32 = f.position := Nat.mod_eq_of_lt (by omega)
      rw [Nat.mod_eq_of_lt hsz, hp]
      have hsp : f.size + 2 ^ 32 - f.position = f.size - f.position + 2 ^ 32 := by
        omega
      rw [hsp, Nat.add_mod_right]
      exact Nat.mod_eq_of_lt (by omega)
    have hc : (f.size : Int) - (f.position : Int) = ((f.size - f.position : Nat) : Int) := by
      omega
    simp only [File.available, hu, hc]
    split <;> rename_i hgt
    · rw [min_eq_right (by exact_mod_cast hgt.le)]
    · rw [min_eq_left (by exact_mod_cast Nat.not_lt.mp hgt)]

/-- Witness for C8 at the spec's concrete scenario: size 100, position 90
gives 10; position 100 gives 0. -/
theorem available_spec_witness :
    (f90.position ≤ f90.size ∧ f90.size < 2 ^ 32
        ∧ f90.available = min ((f90.size : Int) - (f90.position : Int)) 0x7FFF)
      ∧ f90.available = 10 ∧ f100.available = 0 :=
  ⟨⟨by decide, by decide, (available_spec f90).2.2 (by decide) (by decide)⟩,
    by decide, by decide⟩

/-- C4: `seek(pos)` with `pos > size()` fails and leaves the position
unchanged; with `pos ≤ size()` on a live file object it succeeds and the
position becomes `pos`. -/
theorem seek_spec (f : File) (fil : FIL) (h : f._fil = some fil)
    (hlive : fil.fs ≠ 0) (pos : Nat) :
    (pos > f.size → (f.seek pos).1 = false ∧ (f.seek pos).2.position = f.position)
    ∧ (pos ≤ f.size → (f.seek pos).1 = true ∧ (f.seek pos).2.position = pos) := by
  constructor
  · intro hgt
    simp [File.seek, hgt]
  · intro hle
    have hsz : f.size = fil.content.length := by simp [File.size, h]
    simp only [File.seek, h, f_lseek, hlive, if_false, gt_iff_lt,
      Nat.not_lt.mpr hle, if_neg (Nat.not_lt.mpr hle)]
    constructor
    · simp [hlive]
    · simp only [File.position]
      omega

/-- Witness for C4: seeking to 50 and to 101 on the size-100 file. -/
theorem seek_spec_witness :
    ((50 : Nat) ≤ f90.size ∧ (f90.seek 50).1 = true ∧ (f90.seek 50).2.position = 50)
      ∧ ((101 : Nat) > f90.size ∧ (f90.seek 101).1 = false
          ∧ (f90.seek 101).2.position = f90.position) :=
  ⟨⟨by decide,
      ((seek_spec f90 _ rfl (by decide) 50).2 (by decide)).1,
      ((seek_spec f90 _ rfl (by decide) 50).2 (by decide)).2⟩,
    ⟨by decide,
      ((seek_spec f90 _ rfl (by decide) 101).1 (by decide)).1,
      ((seek_spec f90 _ rfl (by decide) 101).1 (by decide)).2⟩⟩

/-- C5 fails on the code: `read()` stores the byte in an `int8_t`, so the
byte 200 comes back sign-extended as -56 — neither the byte value in
0–255 nor the -1 failure sentinel; and at end of file `f_read` succeeds
having read 0 bytes, so `read()` returns whatever the uninitialised
`data` slot held (here 7) instead of -1.  The buffer form does return
the byte count. -/
theorem read_single_byte_bug :
    (File.read1 0 fileByte200).1 = -56
      ∧ ¬(0 ≤ (File.read1 0 fileByte200).1 ∧ (File.read1 0 fileByte200).1 ≤ 255)
      ∧ (File.read1 0 fileByte200).1 ≠ -1
      ∧ (File.read1 7 fileAtEof).1 = 7
      ∧ (fileByte200.readBuf 5).1 = 1 ∧ (fileAtEof.readBuf 5).1 = 0 := by
  decide

theorem afterLastSlash_none {n : List Char} :
    afterLastSlash n = none ↔ '/' ∉ n := by
  induction n with
  | nil => simp [afterLastSlash]
  | cons c cs ih =>
    simp only [afterLastSlash]
    cases h : afterLastSlash cs with
    | some s =>
      have hm : '/' ∈ cs := by
        by_contra hmem
        rw [ih.mpr hmem] at h
        cases h
      simp [List.mem_cons, hm]
    | none =>
      have hcs : '/' ∉ cs := ih.mp h
      by_cases hc : c = '/'
      · simp [hc]
      · have hc2 : '/' ≠ c := fun hh => hc hh.symm
        simp [hc, hcs, List.mem_cons, hc2]

theorem afterLastSlash_mem {n : List Char} (hm : '/' ∈ n) :
    ∃ pre s, afterLastSlash n = some s ∧ n = pre ++ '/' :: s ∧ '/' ∉ s := by
  induction n with
  | nil => cases hm
  | cons c cs ih =>
    cases h : afterLastSlash cs with
    | some s =>
      have hcs : '/' ∈ cs := by
        by_contra hmem
        rw [afterLastSlash_none.mpr hmem] at h
        cases h
      obtain ⟨pre, s', hs, heq, hns⟩ := ih hcs
      rw [h] at hs
      obtain rfl : s' = s := by cases hs; rfl
      refine ⟨c :: pre, s', ?_, by simp [heq], hns⟩
      simp [afterLastSlash, h]
    | none =>
      have hcs : '/' ∉ cs := afterLastSlash_none.mp h
      have hc : c = '/' := by
        rcases List.mem_cons.mp hm with h1 | h1
        · exact h1.symm
        · exact absurd h1 hcs
      subst hc
      exact ⟨[], cs, by simp [afterLastSlash, h], by simp, hcs⟩

/-- C10: on a bound path with no separator, `name()` returns the null
pointer `strrchr` produced, not the whole path; when a separator is
present it returns exactly the final segment (the suffix after the last
`'/'`). -/
theorem name_spec (f : File) (n : List Char) (h : f._name = some n) :
    ('/' ∉ n → f.name = none)
    ∧ ('/' ∈ n → ∃ pre s, f.name = some s ∧ n = pre ++ '/' :: s ∧ '/' ∉ s) := by
  constructor
  · intro hm
    simp [File.name, h, afterLastSlash_none.mpr hm]
  · intro hm
    obtain ⟨pre, s, hs, heq, hns⟩ := afterLastSlash_mem hm
    exact ⟨pre, s, by simp [File.name, h, hs], heq, hns⟩

/-- Witness for C10: `name()` on `"ab"` is null; on `"d/ab"` it is the
segment after the separator. -/
theorem name_spec_witness :
    (¬ '/' ∈ ['a', 'b'] ∧ fileNoSlash.name = none)
      ∧ fileWithSlash.name = some ['a', 'b'] :=
  ⟨⟨by decide, (name_spec fileNoSlash ['a', 'b'] rfl).1 (by decide)⟩, by decide⟩

theorem sdNone_wf : sdNone.WF := by
  refine ⟨?_, ?_, ?_⟩
  · intro p m h
    simp [sdNone] at h
  · intro p h
    simp [sdNone] at h
  · intro p _
    rfl

/-- C9 fails as stated: `FA_WRITE` carries write intent and nothing
exists at the path, yet the mode reaching `f_open` is unchanged — the
source only adds the create flag when the mode equals the `FILE_WRITE`
constant (`FA_READ | FA_WRITE`) exactly. -/
theorem create_flag_counterexample :
    FA_WRITE &&& FA_WRITE ≠ 0
      ∧ SDClass.sdExists sdNone ['p'] = false
      ∧ SDClass.adjMode sdNone ['p'] FA_WRITE = FA_WRITE
      ∧ FA_WRITE &&& FA_CREATE_ALWAYS = 0
      ∧ FA_WRITE ≠ FILE_WRITE := by
  decide

/-- C9 amended: the create flag is added exactly when the requested mode
equals the `FILE_WRITE` constant and no entity exists at the path; any
other mode, or an existing entity, leaves the mode passed to the native
file-open unchanged. -/
theorem create_flag_amended (sd : FatFs) (p : List Char) (mode : Nat) :
    (mode = FILE_WRITE → SDClass.sdExists sd p = false →
        SDClass.adjMode sd p mode = mode ||| FA_CREATE_ALWAYS)
    ∧ (mode = FILE_WRITE → SDClass.sdExists sd p = true →
        SDClass.adjMode sd p mode = mode)
    ∧ (mode ≠ FILE_WRITE → SDClass.adjMode sd p mode = mode) := by
  refine ⟨?_, ?_, ?_⟩
  · intro hm he
    subst hm
    simp [SDClass.adjMode, he]
  · intro hm he
    subst hm
    simp [SDClass.adjMode, he]
  · intro hm
    simp [SDClass.adjMode, hm]

theorem opn_shape (sd : FatFs) (p : List Char) (mode : Nat) :
    ((sd.fopen p (SDClass.adjMode sd p mode)).1 = .FR_OK →
        SDClass.opn sd p mode =
          { _name := some p
            _fil := some (sd.fopen p (SDClass.adjMode sd p mode)).2
            _dir := { fs := 0, rest := [] }
            _res := .FR_OK })
    ∧ ((sd.fopen p (SDClass.adjMode sd p mode)).1 ≠ .FR_OK →
        (sd.fopendir p).1 = .FR_OK →
        SDClass.opn sd p mode =
          { _name := some p
            _fil := none
            _dir := (sd.fopendir p).2
            _res := .FR_OK })
    ∧ ((sd.fopen p (SDClass.adjMode sd p mode)).1 ≠ .FR_OK →
        (sd.fopendir p).1 ≠ .FR_OK →
        SDClass.opn sd p mode =
          { _name := none
            _fil := none
            _dir := (sd.fopendir p).2
            _res := (sd.fopendir p).1 }) := by
  refine ⟨?_, ?_, ?_⟩
  · intro h1
    simp [SDClass.opn, h1]
  · intro h1 h2
    simp [SDClass.opn, h1, h2]
  · intro h1 h2
    simp [SDClass.opn, h1, h2]

/-- C1: `open` returns a handle that is file-bound, or directory-bound
(exactly when the native file-open failed and the native directory-open
on the same path succeeded, the file object's memory already released),
or fully empty with a false validity test (both native opens failed,
path buffer released); it is never path-bound with neither state live. -/
theorem open_never_half_bound (sd : FatFs) (hwf : sd.WF) (p : List Char)
    (mode : Nat) :
    (((SDClass.opn sd p mode)._name = some p
        ∧ (SDClass.opn sd p mode).fileBound = true
        ∧ (SDClass.opn sd p mode).dirBound = false)
      ∨ ((sd.fopen p (SDClass.adjMode sd p mode)).1 ≠ .FR_OK
          ∧ (sd.fopendir p).1 = .FR_OK
          ∧ (SDClass.opn sd p mode)._name = some p
          ∧ (SDClass.opn sd p mode)._fil = none
          ∧ (SDClass.opn sd p mode).dirBound = true)
      ∨ ((sd.fopen p (SDClass.adjMode sd p mode)).1 ≠ .FR_OK
          ∧ (sd.fopendir p).1 ≠ .FR_OK
          ∧ (SDClass.opn sd p mode).fullyEmpty = true
          ∧ (SDClass.opn sd p mode).toBool = false))
    ∧ ¬((SDClass.opn sd p mode)._name.isSome = true
        ∧ (SDClass.opn sd p mode).fileBound = false
        ∧ (SDClass.opn sd p mode).dirBound = false) := by
  obtain ⟨hwf1, hwf2, hwf3⟩ := hwf
  by_cases h1 : (sd.fopen p (SDClass.adjMode sd p mode)).1 = .FR_OK
  · rw [(opn_shape sd p mode).1 h1]
    have hfs := hwf1 p (SDClass.adjMode sd p mode) h1
    constructor
    · exact Or.inl ⟨rfl, by simp [File.fileBound, hfs], by simp [File.dirBound]⟩
    · intro ⟨_, hfb, _⟩
      simp [File.fileBound, hfs] at hfb
  · by_cases h2 : (sd.fopendir p).1 = .FR_OK
    · rw [(opn_shape sd p mode).2.1 h1 h2]
      have hfs := hwf2 p h2
      constructor
      · exact Or.inr (Or.inl ⟨h1, h2, rfl, rfl, by simp [File.dirBound, hfs]⟩)
      · intro ⟨_, _, hdb⟩
        simp [File.dirBound, hfs] at hdb
    · rw [(opn_shape sd p mode).2.2 h1 h2]
      have hfs := hwf3 p h2
      have hfe : (File.mk none none (sd.fopendir p).2 (sd.fopendir p).1).fullyEmpty
          = true := by
        simp [File.fullyEmpty, hfs]
      constructor
      · exact Or.inr (Or.inr ⟨h1, h2, hfe, fullyEmpty_toBool hfe⟩)
      · intro ⟨hnn, _, _⟩
        simp at hnn

/-- Witness for C1 on the all-fail volume: both opens fail, so the
returned handle is fully empty and invalid. -/
theorem open_never_half_bound_witness :
    (SDClass.opn sdNone ['p'] FA_READ).fullyEmpty = true
      ∧ (SDClass.opn sdNone ['p'] FA_READ).toBool = false := by
  rcases (open_never_half_bound sdNone sdNone_wf ['p'] FA_READ).1 with
    h | h | h
  · exact absurd h.2.1 (by decide)
  · exact absurd h.2.1 (by decide)
  · exact ⟨h.2.2.1, h.2.2.2⟩

theorem fullyEmpty_inv {f : File} (h : f.fullyEmpty = true) : f.inv = true := by
  simp only [File.fullyEmpty, Bool.and_eq_true, beq_iff_eq] at h
  obtain ⟨⟨h1, h2⟩, h3⟩ := h
  rw [Option.isNone_iff_eq_none] at h1 h2
  simp [File.inv, File.fileBound, File.dirBound, h1, h2, h3]

/-- C2: the default constructor and `open` establish the handle
invariant — never both states bound, path bound exactly when one state
is — and `close` preserves it; closing a directory-bound handle leaves
the directory state unbound. -/
theorem handle_invariant (sd : FatFs) (hwf : sd.WF) :
    (∀ r, (File.mkRes r).inv = true)
    ∧ (∀ p mode, (SDClass.opn sd p mode).inv = true)
    ∧ (∀ f : File, f.inv = true → (File.close f).inv = true)
    ∧ (∀ f : File, f.inv = true → f.dirBound = true →
        (File.close f).dirBound = false) := by
  obtain ⟨hwf1, hwf2, hwf3⟩ := hwf
  refine ⟨?_, ?_, ?_, ?_⟩
  · intro r
    rfl
  · intro p mode
    by_cases h1 : (sd.fopen p (SDClass.adjMode sd p mode)).1 = .FR_OK
    · rw [(opn_shape sd p mode).1 h1]
      have hfs := hwf1 p (SDClass.adjMode sd p mode) h1
      simp [File.inv, File.fileBound, File.dirBound, hfs]
    · by_cases h2 : (sd.fopendir p).1 = .FR_OK
      · rw [(opn_shape sd p mode).2.1 h1 h2]
        have hfs := hwf2 p h2
        simp [File.inv, File.fileBound, File.dirBound, hfs]
      · rw [(opn_shape sd p mode).2.2 h1 h2]
        exact fullyEmpty_inv (by simp [File.fullyEmpty, hwf3 p h2])
  · intro f hinv
    cases hn : f._name with
    | some n =>
      exact fullyEmpty_inv (close_of_name_some (by simp [hn]))
    | none =>
      simpa [File.close, hn] using hinv
  · intro f hinv hdb
    cases hn : f._name with
    | some n =>
      have := close_of_name_some (f := f) (by simp [hn])
      simp only [File.fullyEmpty, Bool.and_eq_true, beq_iff_eq] at this
      simp [File.dirBound, this.2]
    | none =>
      simp only [File.inv, hn, Option.isNone_none, Bool.and_eq_true,
        beq_iff_eq, hdb, Bool.not_true, Bool.and_false] at hinv
      exact absurd hinv.2.symm (by decide)

/-- Witness for C2: the invariant holds for a fresh handle and for
`open` on the all-fail volume, is preserved by `close`, and closing the
directory-bound `fDir` unbinds its directory state. -/
theorem handle_invariant_witness :
    (File.mkRes .FR_OK).inv = true
      ∧ (SDClass.opn sdNone ['p'] FA_READ).inv = true
      ∧ (File.close fDir).inv = true
      ∧ (File.close fDir).dirBound = false :=
  ⟨(handle_invariant sdNone sdNone_wf).1 .FR_OK,
    (handle_invariant sdNone sdNone_wf).2.1 ['p'] FA_READ,
    (handle_invariant sdNone sdNone_wf).2.2.1 fDir (by decide),
    (handle_invariant sdNone sdNone_wf).2.2.2 fDir (by decide) (by decide)⟩

theorem openNextFrom_char (sd : FatFs) (allocOk : Bool) (n : List Char)
    (mode : Nat) (l : List FILINFO) :
    (openNextFrom sd allocOk n mode l).1 =
      match l.dropWhile isDotEntry with
      | [] => File.mkRes .FR_OK
      | fno :: _ =>
        if fno.fname = [] then File.mkRes .FR_OK
        else if allocOk then SDClass.opn sd (childPath n fno.fname) mode
        else File.mkRes .FR_NOT_ENOUGH_CORE := by
  induction l with
  | nil => rfl
  | cons fno rest ih =>
    by_cases hd : isDotEntry fno = true
    · have hne : ¬fno.fname = [] := by
        intro hh
        simp [isDotEntry, hh] at hd
      simp only [openNextFrom, if_neg hne, hd, if_true, List.dropWhile_cons]
      exact ih
    · rw [Bool.not_eq_true] at hd
      simp only [openNextFrom, List.dropWhile_cons, hd, Bool.false_eq_true,
        if_false]
      by_cases he : fno.fname = []
      · simp [he]
      · simp only [he, if_neg he, hd, Bool.false_eq_true, if_false]
        split <;> rfl

/-- C6: on a directory-bound handle, `openNextFile` skips the
leading-dot entries, then — for the first remaining real entry — builds
`<dirPath>/<entryName>` (no doubled separator when the directory path
already ends in `'/'`) and resolves it through `SDClass::open` with the
given mode; when iteration is exhausted it returns the empty handle
carrying the iterator's result code (`FR_OK`), and when the path buffer
cannot be allocated it returns the empty handle carrying
`FR_NOT_ENOUGH_CORE`. -/
theorem openNextFile_spec (sd : FatFs) (allocOk : Bool) (mode : Nat)
    (f : File) (n : List Char) (hname : f._name = some n)
    (hdir : f._dir.fs ≠ 0) :
    ((File.openNextFile sd allocOk mode f).1 =
      match f._dir.rest.dropWhile isDotEntry with
      | [] => File.mkRes .FR_OK
      | fno :: _ =>
        if fno.fname = [] then File.mkRes .FR_OK
        else if allocOk then SDClass.opn sd (childPath n fno.fname) mode
        else File.mkRes .FR_NOT_ENOUGH_CORE)
    ∧ (∀ fn, n.getLast? = some '/' → childPath n fn = n ++ fn)
    ∧ (∀ fn, n.getLast? ≠ some '/' → childPath n fn = n ++ '/' :: fn) := by
  refine ⟨?_, ?_, ?_⟩
  · simp only [File.openNextFile, hdir, if_neg hdir, hname, Option.getD_some]
    exact openNextFrom_char sd allocOk n mode f._dir.rest
  · intro fn hl
    simp [childPath, hl]
  · intro fn hl
    simp [childPath, hl]

/-- Witness for C6: the dot entry is skipped and `"a"` is resolved via
`SDClass::open` on the joined path `"d/a"`. -/
theorem openNextFile_spec_witness :
    (File.openNextFile sdNone true FILE_READ fDirIter).1 =
        SDClass.opn sdNone (childPath ['d'] ['a']) FILE_READ
      ∧ childPath ['d'] ['a'] = ['d'] ++ '/' :: ['a'] := by
  constructor
  · rw [(openNextFile_spec sdNone true FILE_READ fDirIter ['d'] rfl
      (by decide)).1]
    rfl
  · exact (openNextFile_spec sdNone true FILE_READ fDirIter ['d'] rfl
      (by decide)).2.2 ['a'] (by decide)

/-- Witness for C9's amended statement: with `FILE_WRITE` on an absent
path the create flag is added; with `FA_WRITE` it is not. -/
theorem create_flag_amended_witness :
    SDClass.sdExists sdNone ['p'] = false
      ∧ SDClass.adjMode sdNone ['p'] FILE_WRITE = FILE_WRITE ||| FA_CREATE_ALWAYS
      ∧ SDClass.adjMode sdNone ['q'] FA_WRITE = FA_WRITE :=
  ⟨by decide,
    (create_flag_amended sdNone ['p'] FILE_WRITE).1 rfl (by decide),
    (create_flag_amended sdNone ['q'] FA_WRITE).2.2 (by decide)⟩

theorem opn_invalid_fullyEmpty (sd : FatFs) (hwf : sd.WF) (p : List Char)
    (mode : Nat) (h : (SDClass.opn sd p mode).toBool = false) :
    (SDClass.opn sd p mode).fullyEmpty = true := by
  obtain ⟨hwf1, hwf2, hwf3⟩ := hwf
  by_cases h1 : (sd.fopen p (SDClass.adjMode sd p mode)).1 = .FR_OK
  · exfalso
    rw [(opn_shape sd p mode).1 h1] at h
    have hfs := hwf1 p (SDClass.adjMode sd p mode) h1
    simp [File.toBool, hfs] at h
  · by_cases h2 : (sd.fopendir p).1 = .FR_OK
    · exfalso
      rw [(opn_shape sd p mode).2.1 h1 h2] at h
      have hfs := hwf2 p h2
      simp [File.toBool, hfs] at h
    · rw [(opn_shape sd p mode).2.2 h1 h2]
      simp [File.fullyEmpty, hwf3 p h2]

theorem lsSub_children (sd : FatFs) (hwf : sd.WF) (allocOk : Bool)
    (child : Nat → File → List Char × List File)
    (hchild : ∀ ind g c, c ∈ (child ind g).2 → c.fullyEmpty = true)
    (indent : Nat) (n fn : List Char) :
    ∀ c ∈ (lsSub sd allocOk child indent n fn).2, c.fullyEmpty = true := by
  intro c hc
  rw [lsSub] at hc
  by_cases ha : allocOk = true
  · rw [if_pos ha] at hc
    dsimp only at hc
    cases ht : (SDClass.opn sd (n ++ '/' :: fn) FA_READ).toBool with
    | true =>
      rw [if_pos ht] at hc
      rcases List.mem_append.mp hc with hm | hm
      · exact hchild _ _ c hm
      · rw [List.mem_singleton] at hm
        subst hm
        exact close_of_name_some (toBool_name_some ht)
    | false =>
      rw [if_neg (by simp [ht])] at hc
      rw [List.mem_singleton] at hc
      subst hc
      exact opn_invalid_fullyEmpty sd hwf _ _ ht
  · rw [if_neg ha] at hc
    cases hc

theorem lsLevel_children (sd : FatFs) (hwf : sd.WF) (allocOk : Bool)
    (flags : Nat) (child : Nat → File → List Char × List File)
    (hchild : ∀ ind g c, c ∈ (child ind g).2 → c.fullyEmpty = true)
    (indent : Nat) (n : List Char) :
    ∀ l, ∀ c ∈ (lsLevel sd allocOk flags child indent n l).2,
      c.fullyEmpty = true := by
  intro l
  induction l with
  | nil =>
    intro c hc
    cases hc
  | cons fno rest ih =>
    intro c hc
    simp only [lsLevel] at hc
    by_cases he : fno.fname = []
    · rw [if_pos he] at hc
      cases hc
    · rw [if_neg he] at hc
      by_cases hd : isDotEntry fno = true
      · rw [if_pos hd] at hc
        exact ih c hc
      · rw [if_neg hd] at hc
        by_cases hA : fno.fattrib &&& AM_DIR = 0
        · rw [if_pos hA] at hc
          exact ih c hc
        · rw [if_neg hA] at hc
          by_cases hR : flags &&& LS_R ≠ 0
          · rw [if_pos hR] at hc
            rcases List.mem_append.mp hc with hm | hm
            · exact lsSub_children sd hwf allocOk child hchild indent n
                fno.fname c hm
            · exact ih c hm
          · rw [if_neg hR] at hc
            exact ih c hc

theorem lsLoop_children (sd : FatFs) (hwf : sd.WF) (allocOk : Bool)
    (flags : Nat) :
    ∀ fuel indent n l, ∀ c ∈ (lsLoop sd allocOk flags fuel indent n l).2,
      c.fullyEmpty = true := by
  intro fuel
  induction fuel with
  | zero =>
    intro indent n l c hc
    simp only [lsLoop] at hc
    exact lsLevel_children sd hwf allocOk flags _
      (fun _ _ c' hc' => absurd hc' (List.not_mem_nil c')) indent n l c hc
  | succ fuel ih =>
    intro indent n l c hc
    simp only [lsLoop] at hc
    refine lsLevel_children sd hwf allocOk flags _ ?_ indent n l c hc
    intro ind g c' hc'
    by_cases hg : g._dir.fs = 0
    · rw [if_pos hg] at hc'
      cases hc'
    · rw [if_neg hg] at hc'
      exact ih ind (g._name.getD []) g._dir.rest c' hc'

theorem lsLevel_cons_dir (sd : FatFs) (allocOk : Bool) (flags : Nat)
    (child : Nat → File → List Char × List File) (indent : Nat)
    (n : List Char) (fno : FILINFO) (rest : List FILINFO)
    (hne : fno.fname ≠ []) (hnd : isDotEntry fno = false)
    (hattr : fno.fattrib &&& AM_DIR ≠ 0) (hrec : flags &&& LS_R ≠ 0) :
    lsLevel sd allocOk flags child indent n (fno :: rest) =
      (spaces indent ++ fno.fname
          ++ ((lsSub sd allocOk child indent n fno.fname).1
            ++ (lsLevel sd allocOk flags child indent n rest).1),
        (lsSub sd allocOk child indent n fno.fname).2
          ++ (lsLevel sd allocOk flags child indent n rest).2) := by
  simp only [lsLevel]
  rw [if_neg hne, if_neg (by simp [hnd]), if_neg hattr, if_pos hrec]
  simp [List.append_assoc]

theorem lsSub_open_fail (sd : FatFs)
    (child : Nat → File → List Char × List File) (indent : Nat)
    (n fn : List Char)
    (hf : (SDClass.opn sd (n ++ '/' :: fn) FA_READ).toBool = false) :
    lsSub sd true child indent n fn =
      (fn ++ crlf ++ errOpenDir ++ fn ++ crlf,
        [SDClass.opn sd (n ++ '/' :: fn) FA_READ]) := by
  simp [lsSub, hf]

theorem lsSub_open_ok (sd : FatFs)
    (child : Nat → File → List Char × List File) (indent : Nat)
    (n fn : List Char)
    (hf : (SDClass.opn sd (n ++ '/' :: fn) FA_READ).toBool = true) :
    lsSub sd true child indent n fn =
      (crlf ++ (child (indent + 2) (SDClass.opn sd (n ++ '/' :: fn) FA_READ)).1,
        (child (indent + 2) (SDClass.opn sd (n ++ '/' :: fn) FA_READ)).2
          ++ [File.close (SDClass.opn sd (n ++ '/' :: fn) FA_READ)]) := by
  simp [lsSub, hf]

/-- C7: in the recursive listing, every child handle the traversal
creates ends fully released whichever exit path its level takes — on
the success path the recorded final state is literally `File.close` of
the child, and on the failed-open path the handle `open` returned was
already fully empty; in both cases it is empty and invalid.  A child
that fails to open is reported to the sink with the open-error message
and the level continues with the remaining sibling entries instead of
aborting, and a child that opens is listed by the recursive call at
`indent + 2` and then closed. -/
theorem ls_recursive_close_spec (sd : FatFs) (hwf : sd.WF) (allocOk : Bool)
    (fuel flags indent : Nat) (n : List Char) (fno : FILINFO)
    (rest : List FILINFO) (hne : fno.fname ≠ [])
    (hnd : isDotEntry fno = false) (hattr : fno.fattrib &&& AM_DIR ≠ 0)
    (hrec : flags &&& LS_R ≠ 0) :
    (∀ c ∈ (lsLoop sd allocOk flags fuel indent n (fno :: rest)).2,
        c.fullyEmpty = true ∧ c.toBool = false)
    ∧ (allocOk = true →
        (SDClass.opn sd (n ++ '/' :: fno.fname) FA_READ).toBool = false →
        lsLoop sd allocOk flags fuel indent n (fno :: rest) =
          (spaces indent ++ fno.fname
              ++ ((fno.fname ++ crlf ++ errOpenDir ++ fno.fname ++ crlf)
                ++ (lsLoop sd allocOk flags fuel indent n rest).1),
            SDClass.opn sd (n ++ '/' :: fno.fname) FA_READ
              :: (lsLoop sd allocOk flags fuel indent n rest).2))
    ∧ (∀ fuel', fuel = fuel' + 1 → allocOk = true →
        (SDClass.opn sd (n ++ '/' :: fno.fname) FA_READ).toBool = true →
        lsLoop sd allocOk flags fuel indent n (fno :: rest) =
          (spaces indent ++ fno.fname
              ++ (crlf
                ++ (File.ls sd allocOk fuel' flags (indent + 2)
                      (SDClass.opn sd (n ++ '/' :: fno.fname) FA_READ)).1
                ++ (lsLoop sd allocOk flags fuel indent n rest).1),
            (File.ls sd allocOk fuel' flags (indent + 2)
                  (SDClass.opn sd (n ++ '/' :: fno.fname) FA_READ)).2
              ++ File.close (SDClass.opn sd (n ++ '/' :: fno.fname) FA_READ)
              :: (lsLoop sd allocOk flags fuel indent n rest).2)) := by
  refine ⟨?_, ?_, ?_⟩
  · intro c hc
    have h := lsLoop_children sd hwf allocOk flags fuel indent n (fno :: rest) c hc
    exact ⟨h, fullyEmpty_toBool h⟩
  · intro ha hf
    subst ha
    cases fuel with
    | zero =>
      simp only [lsLoop]
      rw [lsLevel_cons_dir sd true flags _ indent n fno rest hne hnd hattr hrec,
        lsSub_open_fail sd _ indent n fno.fname hf]
      simp [List.append_assoc]
    | succ fuel' =>
      simp only [lsLoop]
      rw [lsLevel_cons_dir sd true flags _ indent n fno rest hne hnd hattr hrec,
        lsSub_open_fail sd _ indent n fno.fname hf]
      simp [List.append_assoc]
  · intro fuel' hfuel ha hf
    subst hfuel
    subst ha
    simp only [lsLoop]
    rw [lsLevel_cons_dir sd true flags _ indent n fno rest hne hnd hattr hrec,
      lsSub_open_ok sd _ indent n fno.fname hf]
    simp [File.ls, List.append_assoc]

/-- Witness for C7 on the all-fail volume: the child `"d/s"` fails to
open, the error text is emitted to the sink, the ghost final state is
the (already fully empty) child handle, and the level's loop continues
with the remaining entries. -/
theorem ls_recursive_close_spec_witness :
    lsLoop sdNone true LS_R 1 0 ['d'] [dirEntryS] =
      (spaces 0 ++ dirEntryS.fname
          ++ ((dirEntryS.fname ++ crlf ++ errOpenDir ++ dirEntryS.fname ++ crlf)
            ++ (lsLoop sdNone true LS_R 1 0 ['d'] []).1),
        SDClass.opn sdNone (['d'] ++ '/' :: dirEntryS.fname) FA_READ
          :: (lsLoop sdNone true LS_R 1 0 ['d'] []).2) :=
  (ls_recursive_close_spec sdNone sdNone_wf true 1 LS_R 0 ['d'] dirEntryS []
      (by decide) (by decide) (by decide) (by decide)).2.1 rfl (by decide)
